import Mathlib

/-!
Shallow embedding of `src/scribe.js` (the Scribe editor facade), covering:

* the string helpers the source uses (`String.prototype.replace` with a
  global literal pattern, the trailing `<br>` strip of `getContent`);
* the editor state (`el.innerHTML`, the undo manager's stack/position,
  the selection) and `pushHistory` (lines 205-232);
* the command registry `getCommand` (lines 234-236);
* `restoreFromHistory` (lines 238-246) with an observation log of the
  side effects it performs, in order;
* the `Formatter` post-processing pipeline (lines 287-297);
* the constructor's option handling (lines 31-38) and the two
  configuration accessors (lines 249-251, 282-284).

The collaborators `./undo-manager` and `./api` (Selection, Command) are
not part of the source tree; where their behavior is needed it is
modelled from the spec, and each such definition says so in its doc
comment.  Everything else is translated directly from `scribe.js`.
-/

/-- all non-overlapping occurrences of `pat` replaced by `rep`, scanning
left to right — the semantics of JavaScript
`String.prototype.replace(/pat/g, rep)` for a literal pattern.  The fuel
argument only makes the recursion structural; it is always called with
enough fuel (the length of the subject) to run to completion, since each
step consumes at least one character. -/
def replaceAllAux (pat rep : List Char) : Nat → List Char → List Char
  | _, [] => []
  | 0, s => s
  | fuel + 1, c :: rest =>
    if pat ≠ [] ∧ pat.isPrefixOf (c :: rest) then
      rep ++ replaceAllAux pat rep fuel ((c :: rest).drop pat.length)
    else
      c :: replaceAllAux pat rep fuel rest

/-- JavaScript `s.replace(/pat/g, rep)` for a literal pattern `pat`. -/
def jsReplaceAll (s pat rep : String) : String :=
  String.mk (replaceAllAux pat.data rep.data s.data.length s.data)

/-- the opening tag of a selection marker, as it appears in the regexes of
`pushHistory` (line 208 of `scribe.js`). -/
def markerStart : String := "<em class=\"scribe-marker\">"

/-- a complete (empty) selection marker element, the paired token the
editor embeds in a snapshot to record the caret position. -/
def scribeMarker : String := markerStart ++ "</em>"

/-- one recorded side effect of the editor facade, used to observe what
`restoreFromHistory` does and in which order. -/
inductive Op where
  | opSetHTML (html : String)
  | opSelectMarkers
  | opTrigger (ev : String)
deriving DecidableEq

/-- the state of one Scribe instance that the history subsystem touches:
the editable element's `innerHTML`, the undo manager's stack and
position, whether a selection range currently exists
(`selection.rangeCount`), the character position at which
`Selection.placeMarkers` would insert its marker, and a log of the
observable side effects performed so far. -/
structure Editor where
  html : String
  stack : List String
  position : Nat
  rangeCount : Bool
  markerPos : Nat
  log : List Op

/-- `Scribe.prototype.getHTML` (line 192): returns `el.innerHTML`. -/
def getHTML (e : Editor) : String := e.html

/-- `Scribe.prototype.getContent` (line 196): `getHTML()` with the regex
`/<br>$/` replaced by the empty string, i.e. one trailing `<br>` removed
when the HTML ends with it. -/
def getContent (e : Editor) : String :=
  if "<br>".data.isSuffixOf (getHTML e).data then
    String.mk ((getHTML e).data.take ((getHTML e).data.length - 4))
  else getHTML e

/-- the stripping `pushHistory` applies to the stored undo item
(lines 207-208): remove every occurrence of the marker opening tag, then
every occurrence of `</em>` — note the second replace removes every
closing `em` tag, not only the markers'. -/
def stripMarkers (s : String) : String :=
  jsReplaceAll (jsReplaceAll s markerStart "") "</em>" ""

/-- Modelled from the spec: the marker-ignoring view of a snapshot used
by the specification's push-gating description ("the candidate
Snapshot's content (ignoring marker tokens)"): every complete marker
token removed, the same stripping on either side of the comparison. -/
def specStripMarkers (s : String) : String :=
  jsReplaceAll s scribeMarker ""

/-- Modelled from the spec: `Selection.placeMarkers` of the `./api`
module (not under `src/`).  The spec says markers are a reserved paired
token inserted into the serialized content to encode the caret position
without altering visible content; we insert the paired marker token at
the selection's character position. -/
def placeMarkers (s : String) (pos : Nat) : String :=
  String.mk (s.data.take pos ++ scribeMarker.data ++ s.data.drop pos)

/-- the HTML captured by `pushHistory` (lines 218-224): markers are
placed only when `selection.rangeCount` is non-zero, then `getHTML()` is
read, then the markers are removed again (so the DOM content itself is
left as it was, per the spec's invariant that markers are
insertable/removable without altering visible content). -/
def capturedHTML (e : Editor) : String :=
  if e.rangeCount then placeMarkers e.html e.markerPos else e.html

/-- Modelled from the spec: `UndoManager.push` of the `./undo-manager`
module (not under `src/`).  Per §3/§8 of the spec, push truncates every
entry after the current position, appends the item, and leaves the
position pointing at the new item. -/
def undoManagerPush (stack : List String) (position : Nat) (item : String) : List String × Nat :=
  let newStack := stack.take (position + 1) ++ [item]
  (newStack, newStack.length - 1)

/-- the then-branch of `pushHistory` (lines 218-228): place markers if a
range exists, capture `getHTML()`, remove the markers, push the captured
HTML onto the undo manager, return `true`. -/
def pushHistoryCommit (e : Editor) : Editor × Bool :=
  let r := undoManagerPush e.stack e.position (capturedHTML e)
  ({ e with stack := r.1, position := r.2 }, true)

/-- `Scribe.prototype.pushHistory` (lines 205-232).  The JavaScript guard
is `!previousUndoItem || (previousUndoItem && getContent() !==
previousContent)`: `stack[position]` is falsy when the position is out of
bounds (`undefined`) or when the stored item is the empty string, and in
either of those cases the push happens unconditionally; otherwise the
push happens exactly when `getContent()` differs from the stored item
stripped by `stripMarkers`. -/
def pushHistory (e : Editor) : Editor × Bool :=
  match e.stack[e.position]? with
  | none => pushHistoryCommit e
  | some previousUndoItem =>
    if previousUndoItem = "" then pushHistoryCommit e
    else if getContent e ≠ stripMarkers previousUndoItem then pushHistoryCommit e
    else (e, false)

/-- `Scribe.prototype.setHTML` (line 188): writes `el.innerHTML`;
recorded in the log to observe ordering. -/
def setHTML (e : Editor) (html : String) : Editor :=
  { e with html := html, log := e.log ++ [Op.opSetHTML html] }

/-- Modelled from the spec: `Selection.selectMarkers` of the `./api`
module (not under `src/`).  Per §4.3 of the spec it restores a selection
at the marker positions and then strips the markers from the content. -/
def selectMarkers (e : Editor) : Editor :=
  { e with html := jsReplaceAll e.html scribeMarker "",
           rangeCount := true,
           log := e.log ++ [Op.opSelectMarkers] }

/-- `trigger` of the event-emitter base (external collaborator): emits a
named event; recorded in the log. -/
def trigger (e : Editor) (ev : String) : Editor :=
  { e with log := e.log ++ [Op.opTrigger ev] }

/-- `Scribe.prototype.restoreFromHistory` (lines 238-246): `setHTML`
with the history item, then `selectMarkers`, then trigger
`content-changed`. -/
def restoreFromHistory (e : Editor) (historyItem : String) : Editor :=
  trigger (selectMarkers (setHTML e historyItem)) "content-changed"

/-- a command object held in a registry tier.  `Command.defaultOf name`
is `new api.Command(name)` — Modelled from the spec: the `./api` module
is not under `src/`; the spec describes the default command as a
pass-through wrapper of the native mutation primitive of that name.
`Command.custom id` stands for an arbitrary command object registered by
a plugin or a patch. -/
inductive Command where
  | defaultOf (name : String)
  | custom (id : Nat)
deriving DecidableEq

/-- the two registry maps owned by a Scribe instance: `this.commands`
(line 33, where plugins register) and `this.commandPatches` (line 39,
where patches register), each mapping a command name to the command
object currently stored under it. -/
structure Registry where
  commands : List (String × Command)
  commandPatches : List (String × Command)

/-- `Scribe.prototype.getCommand` (lines 234-236):
`this.commands[name] || this.commandPatches[name] || new api.Command(name)`.
Command objects are always truthy, so the `||` chain returns the first
map that has an entry under the name, and falls back to constructing the
default native-backed command.  It is total: no lookup failure can
escape. -/
def getCommand (r : Registry) (commandName : String) : Command :=
  match r.commands.lookup commandName with
  | some c => c
  | none =>
    match r.commandPatches.lookup commandName with
    | some c => c
    | none => Command.defaultOf commandName

/-- the formatting pipeline (lines 287-289): an ordered list of
string-to-string stages. -/
structure Formatter where
  formatters : List (String → String)

/-- `Formatter.prototype.format` (lines 291-297): `reduce` over the
registered formatters with the input as initial accumulator, i.e. a left
fold applying each stage to the previous stage's output. -/
def Formatter.format (f : Formatter) (html : String) : String :=
  f.formatters.foldl (fun formattedData formatter => formatter formattedData) html

/-- the options object a caller may pass to the `Scribe` constructor:
the two recognized options, the `targetWindow` escape hatch read at line
38, and any number of unrecognized extra options. `none` stands for a
key that is absent (or `undefined`, which lodash `defaults` treats the
same way). -/
structure Options where
  allowBlockElements : Option Bool
  debug : Option Bool
  targetWindow : Option Nat
  extra : List (String × String)
deriving DecidableEq

/-- the merged configuration stored as `this.options`. -/
structure Config where
  allowBlockElements : Bool
  debug : Bool
  extra : List (String × String)
deriving DecidableEq

/-- the errors the constructor model can raise: only the JavaScript
`TypeError` from reading a property of `undefined`. -/
inductive JsError where
  | typeError
deriving DecidableEq

/-- the slice of a constructed Scribe instance the configuration claims
are about. -/
structure ScribeCore where
  options : Config
  targetWindow : Nat
deriving DecidableEq

/-- the ambient `window` global of line 38, as an opaque handle value. -/
def windowGlobal : Nat := 0

/-- lodash `defaults(options, ...)` of lines 34-37, where the first
argument is `options` guarded by `||` with an empty object literal, and
the second holds `allowBlockElements: true, debug: false`: absent (or
`undefined`) recognized
keys are filled from the defaults, present keys and every unrecognized
key are kept as given. -/
def mergeDefaults (o : Options) : Config :=
  { allowBlockElements := o.allowBlockElements.getD true,
    debug := o.debug.getD false,
    extra := o.extra }

/-- the option handling of the `Scribe` constructor, lines 31-38.  Line
34 guards the merge with `options` or-else an empty object, but line 38 then reads
`options.targetWindow` without a guard, which in JavaScript throws a
`TypeError` when `options` is `undefined` — so construction with no
options object at all fails, while any actual options object (however
unrecognized its keys) is accepted without validation. -/
def scribeInit (options : Option Options) : Except JsError ScribeCore :=
  let opts := options.getD ⟨none, none, none, []⟩
  let config := mergeDefaults opts
  match options with
  | none => Except.error JsError.typeError
  | some o => Except.ok { options := config, targetWindow := o.targetWindow.getD windowGlobal }

/-- `Scribe.prototype.allowsBlockElements` (lines 249-251). -/
def allowsBlockElements (s : ScribeCore) : Bool :=
  s.options.allowBlockElements

/-- `Scribe.prototype.isDebugModeEnabled` (lines 282-284). -/
def isDebugModeEnabled (s : ScribeCore) : Bool :=
  s.options.debug

/-! Concrete instances used by counterexamples and witnesses. -/

/-- an editor whose content and whose stored undo item are the identical
string containing a real `em` element and no marker tokens. -/
def exC2 : Editor := ⟨"<em>a</em>", ["<em>a</em>"], 0, false, 0, []⟩

/-- an editor with empty history whose content contains a real `em`
element. -/
def exC3 : Editor := ⟨"<em>a</em>", [], 0, false, 0, []⟩

/-- an editor with empty history and plain paragraph content. -/
def wC3 : Editor := ⟨"<p>a</p>", [], 0, false, 0, []⟩

/-- the same editor with a selection range present, so that a push
places markers (at character position 3, inside the paragraph). -/
def wC3m : Editor := ⟨"<p>a</p>", [], 0, true, 3, []⟩

/-- an editor with empty content and empty history. -/
def wC9 : Editor := ⟨"", [], 0, false, 0, []⟩

/-- an editor whose HTML carries the bogus trailing `<br>`. -/
def w10a : Editor := ⟨"a<br>", ["x"], 0, false, 0, []⟩

/-- the same editor state without the trailing `<br>`. -/
def w10b : Editor := ⟨"a", ["x"], 0, false, 0, []⟩

/-- a registry with a plugin command and a patch command registered under
the same name. -/
def regBoth : Registry := ⟨[("bold", Command.custom 1)], [("bold", Command.custom 2)]⟩

/-- a registry with only a patch command under the name. -/
def regPatchOnly : Registry := ⟨[], [("bold", Command.custom 2)]⟩

/-- a registry with nothing registered. -/
def regNone : Registry := ⟨[], []⟩

/-- a registry with nothing registered, for the fallback witness. -/
def regEmptyC4 : Registry := ⟨[], []⟩

/-- an options object carrying only an unrecognized option. -/
def exOptsC5 : Options := ⟨none, none, none, [("unknownOption", "x")]⟩

/-! Helper lemmas about `pushHistory`, shared by several claims. -/

/-- a `pushHistory` call either leaves the editor untouched and returns
`false`, or performs the commit branch. -/
theorem pushHistory_cases (e : Editor) :
    pushHistory e = (e, false) ∨ pushHistory e = pushHistoryCommit e := by
  cases h : e.stack[e.position]? with
  | none => right; simp [pushHistory, h]
  | some p =>
    by_cases hp : p = ""
    · right; simp [pushHistory, h, hp]
    · by_cases hc : getContent e = stripMarkers p
      · left; simp [pushHistory, h, hp, hc]
      · right; simp [pushHistory, h, hp, hc]

/-- the commit branch truncates after the current position, appends the
captured HTML, points the position at it, leaves the DOM content and the
selection untouched, and reports `true`. -/
theorem pushHistoryCommit_spec (e : Editor) :
    (pushHistoryCommit e).1.stack = e.stack.take (e.position + 1) ++ [capturedHTML e] ∧
    (pushHistoryCommit e).1.position = (e.stack.take (e.position + 1)).length ∧
    (pushHistoryCommit e).1.html = e.html ∧
    (pushHistoryCommit e).1.rangeCount = e.rangeCount ∧
    (pushHistoryCommit e).2 = true := by
  refine ⟨rfl, ?_, rfl, rfl, rfl⟩
  simp [pushHistoryCommit, undoManagerPush]

/-- the exact condition under which `pushHistory` is a no-op returning
`false`: a stored item exists at the current position, it is non-empty
(JavaScript truthiness), and `getContent()` coincides with that stored
item after the one-sided `stripMarkers` stripping. -/
theorem pushHistory_returns_false_iff (e : Editor) :
    (pushHistory e).2 = false ↔
      ∃ p, e.stack[e.position]? = some p ∧ p ≠ "" ∧ getContent e = stripMarkers p := by
  cases h : e.stack[e.position]? with
  | none => simp [pushHistory, h, pushHistoryCommit]
  | some p =>
    by_cases hp : p = ""
    · simp [pushHistory, h, hp, pushHistoryCommit]
    · by_cases hc : getContent e = stripMarkers p
      · simp [pushHistory, h, hp, hc]
      · simp [pushHistory, h, hp, hc, pushHistoryCommit]

/-! Claim theorems. -/

/-- C1 counterexample: with a plugin command and a patch command both
registered under `bold`, `getCommand` returns the plugin command, not
the patch command as the claim states — at line 235 `this.commands` is
consulted before `this.commandPatches`. -/
theorem getCommand_plugin_beats_patch_cex :
    regBoth.commands.lookup "bold" = some (Command.custom 1) ∧
    regBoth.commandPatches.lookup "bold" = some (Command.custom 2) ∧
    getCommand regBoth "bold" = Command.custom 1 ∧
    Command.custom 1 ≠ Command.custom 2 := by
  refine ⟨rfl, rfl, rfl, by decide⟩

/-- C1 (amended): effective command precedence is plugin over patch over
native default — a registered plugin command is always returned; a patch
command is returned exactly when no plugin command is registered under
the name; the native-default wrapper is returned when neither is. -/
theorem getCommand_precedence (r : Registry) (n : String) :
    (∀ c, r.commands.lookup n = some c → getCommand r n = c) ∧
    (r.commands.lookup n = none →
      ∀ c, r.commandPatches.lookup n = some c → getCommand r n = c) ∧
    (r.commands.lookup n = none → r.commandPatches.lookup n = none →
      getCommand r n = Command.defaultOf n) := by
  refine ⟨?_, ?_, ?_⟩
  · intro c hc; simp [getCommand, hc]
  · intro h c hc; simp [getCommand, h, hc]
  · intro h1 h2; simp [getCommand, h1, h2]

/-- witness for C1: at the three concrete registries the three branches
of the precedence theorem evaluate as stated. -/
theorem getCommand_precedence_witness :
    getCommand regBoth "bold" = Command.custom 1 ∧
    getCommand regPatchOnly "bold" = Command.custom 2 ∧
    getCommand regNone "bold" = Command.defaultOf "bold" :=
  ⟨(getCommand_precedence regBoth "bold").1 (Command.custom 1) rfl,
   (getCommand_precedence regPatchOnly "bold").2.1 rfl (Command.custom 2) rfl,
   (getCommand_precedence regNone "bold").2.2 rfl rfl⟩

/-- C4: command resolution is total — `getCommand` is a function into
`Command`, and when no command is registered under the name in either
tier it returns the default pass-through command wrapping the native
primitive of that name. -/
theorem getCommand_default_fallback (r : Registry) (n : String)
    (h1 : r.commands.lookup n = none) (h2 : r.commandPatches.lookup n = none) :
    getCommand r n = Command.defaultOf n := by
  simp [getCommand, h1, h2]

/-- witness for C4 at an empty registry and the name `insertHTML`. -/
theorem getCommand_default_fallback_witness :
    getCommand regEmptyC4 "insertHTML" = Command.defaultOf "insertHTML" :=
  getCommand_default_fallback regEmptyC4 "insertHTML" rfl rfl

/-- C5 counterexample: an options object whose only key is the
unrecognized `unknownOption` is accepted — construction succeeds, keeps
the unrecognized option, and raises no error, against the claim that a
ConfigurationError is raised synchronously. -/
theorem scribeInit_no_error_cex :
    scribeInit (some exOptsC5) =
      Except.ok ⟨⟨true, false, [("unknownOption", "x")]⟩, windowGlobal⟩ := rfl

/-- C5 (amended): construction performs no validation of the options
object — any options object is accepted, its unrecognized options are
silently retained after the defaults merge, and no error is raised. -/
theorem scribeInit_no_validation (o : Options) :
    ∃ s, scribeInit (some o) = Except.ok s ∧
      s.options.extra = o.extra ∧
      s.options.allowBlockElements = o.allowBlockElements.getD true ∧
      s.options.debug = o.debug.getD false :=
  ⟨_, rfl, rfl, rfl, rfl⟩

/-- C6: the formatting pipeline applies the registered stages left to
right — the empty pipeline is the identity, the first stage receives the
raw input and the rest of the pipeline receives its output, and a stage
appended at the end receives the output of everything before it (so the
result for stages f1..fn is fn applied to ... f1 applied to the
input). -/
theorem format_left_to_right (f : String → String) (fs : List (String → String))
    (fm : Formatter) (input : String) :
    Formatter.format ⟨[]⟩ input = input ∧
    Formatter.format ⟨f :: fs⟩ input = Formatter.format ⟨fs⟩ (f input) ∧
    Formatter.format ⟨fm.formatters ++ [f]⟩ input = f (Formatter.format fm input) := by
  refine ⟨rfl, rfl, ?_⟩
  simp [Formatter.format, List.foldl_append]

/-- C7: `restoreFromHistory` writes the snapshot as the editor content,
restores the selection from the snapshot's markers, and emits exactly
one `content-changed` notification, in that order: the log grows by
precisely those three operations in that order, the content written by
the `setHTML` step is the snapshot itself, and the content afterwards is
the snapshot with its marker tokens stripped by `selectMarkers`. -/
theorem restoreFromHistory_writes_selects_notifies (e : Editor) (item : String) :
    (restoreFromHistory e item).log =
      e.log ++ [Op.opSetHTML item, Op.opSelectMarkers, Op.opTrigger "content-changed"] ∧
    (setHTML e item).html = item ∧
    (restoreFromHistory e item).html = jsReplaceAll item scribeMarker "" := by
  refine ⟨?_, rfl, rfl⟩
  simp [restoreFromHistory, trigger, selectMarkers, setHTML]

/-- C8: the claim is right and the code has a slip — line 34 guards the
defaults merge against a missing options argument, but line 38 reads
`options.targetWindow` unguarded, so constructing with no options object
at all throws a TypeError instead of applying the defaults; with any
options object supplied, omitted options default to
`allowBlockElements = true` and `debug = false`, supplied values are
preserved, and the two accessors report exactly these values. -/
theorem scribeInit_options_defaults :
    scribeInit none = Except.error JsError.typeError ∧
    (∀ o : Options, o.allowBlockElements = none → o.debug = none →
      ∃ s, scribeInit (some o) = Except.ok s ∧
        allowsBlockElements s = true ∧ isDebugModeEnabled s = false) ∧
    (∀ (o : Options) (b d : Bool), o.allowBlockElements = some b → o.debug = some d →
      ∃ s, scribeInit (some o) = Except.ok s ∧
        allowsBlockElements s = b ∧ isDebugModeEnabled s = d) := by
  refine ⟨rfl, ?_, ?_⟩
  · intro o h1 h2
    refine ⟨_, rfl, ?_, ?_⟩
    · simp [allowsBlockElements, mergeDefaults, h1]
    · simp [isDebugModeEnabled, mergeDefaults, h2]
  · intro o b d h1 h2
    refine ⟨_, rfl, ?_, ?_⟩
    · simp [allowsBlockElements, mergeDefaults, h1]
    · simp [isDebugModeEnabled, mergeDefaults, h2]

/-- witness for C8: defaults at an options object with both recognized
keys omitted, and preservation at one with both keys supplied. -/
theorem scribeInit_options_defaults_witness :
    (∃ s, scribeInit (some ⟨none, none, none, []⟩) = Except.ok s ∧
      allowsBlockElements s = true ∧ isDebugModeEnabled s = false) ∧
    (∃ s, scribeInit (some ⟨some false, some true, none, []⟩) = Except.ok s ∧
      allowsBlockElements s = false ∧ isDebugModeEnabled s = true) :=
  ⟨scribeInit_options_defaults.2.1 ⟨none, none, none, []⟩ rfl rfl,
   scribeInit_options_defaults.2.2 ⟨some false, some true, none, []⟩ false true rfl rfl⟩

/-- C2 counterexample: the stored undo item and the current content are
the identical string containing a real `em` element and no marker
tokens, so ignoring marker tokens they are equal — yet `pushHistory`
pushes a duplicate entry and returns `true`, because the stripping of
lines 207-208 deletes the real `</em>` closing tag from the stored side
only. -/
theorem pushHistory_gate_cex :
    exC2.stack[exC2.position]? = some "<em>a</em>" ∧
    getContent exC2 = "<em>a</em>" ∧
    specStripMarkers (getContent exC2) = specStripMarkers "<em>a</em>" ∧
    (pushHistory exC2).2 = true ∧
    (pushHistory exC2).1.stack = ["<em>a</em>", "<em>a</em>"] := by
  refine ⟨rfl, by decide, by decide, by decide, by decide⟩

/-- C2 (amended): `pushHistory()` is a no-op returning `false` exactly
when the entry at the current position exists, is a non-empty string,
and the current content (`getContent()`, taken as-is) equals that entry
with every marker opening tag and every `</em>` substring removed — the
stripping is applied to the stored entry only and also deletes real
`</em>` closing tags, so a stored entry containing a real `em` element
causes a push even when no real content changed. -/
theorem pushHistory_gate_iff (e : Editor) :
    (pushHistory e).2 = false ↔
      ∃ p, e.stack[e.position]? = some p ∧ p ≠ "" ∧ getContent e = stripMarkers p :=
  pushHistory_returns_false_iff e

/-- C3 counterexample: content `<em>a</em>` with empty history — the
first `pushHistory` pushes and returns `true`, and the immediately
following `pushHistory` with no intervening content change pushes a
second entry and returns `true` again, against the claim that the second
call returns `false` and at most one entry is pushed. -/
theorem pushHistory_twice_cex :
    (pushHistory exC3).2 = true ∧
    (pushHistory (pushHistory exC3).1).2 = true ∧
    (pushHistory (pushHistory exC3).1).1.stack = ["<em>a</em>", "<em>a</em>"] := by
  refine ⟨by decide, by decide, by decide⟩

/-- C3 (amended): two consecutive `pushHistory()` calls with no
intervening content change push at most one entry and the second returns
`false`, provided the HTML the first push captures (raw `getHTML()`,
with markers placed when a selection range exists) is non-empty and,
after the one-sided stripping of lines 207-208, equals the current
content `getContent()`.  This covers marker-free content as well as
markers placed into clean content, and excludes exactly the situations
the counterexample exploits, where the stripped stored copy differs from
the current content (such as a real `</em>` closing tag in the content,
or a trailing `<br>`). -/
theorem pushHistory_twice_gated (e : Editor)
    (h2 : capturedHTML e ≠ "")
    (h3 : stripMarkers (capturedHTML e) = getContent e) :
    (pushHistory (pushHistory e).1).2 = false ∧
    (pushHistory (pushHistory e).1).1.stack = (pushHistory e).1.stack := by
  rcases pushHistory_cases e with hA | hB
  · simp only [hA]
    have : pushHistory e = (e, false) := hA
    simp [this]
  · obtain ⟨hst, hpos, hhtml, _, _⟩ := pushHistoryCommit_spec e
    have hget : (pushHistory e).1.stack[(pushHistory e).1.position]? =
        some (capturedHTML e) := by
      rw [hB, hst, hpos]
      exact List.getElem?_concat_length _ _
    have hgc : getContent (pushHistory e).1 = getContent e := by
      have hh : (pushHistory e).1.html = e.html := by rw [hB, hhtml]
      simp [getContent, getHTML, hh]
    have hsecond : pushHistory (pushHistory e).1 = ((pushHistory e).1, false) := by
      have hiff := pushHistory_returns_false_iff (pushHistory e).1
      rcases pushHistory_cases (pushHistory e).1 with hA' | hB'
      · exact hA'
      · exfalso
        have htrue : (pushHistory (pushHistory e).1).2 = true := by
          rw [hB']
          exact (pushHistoryCommit_spec (pushHistory e).1).2.2.2.2
        have hfalse : (pushHistory (pushHistory e).1).2 = false :=
          hiff.mpr ⟨capturedHTML e, hget, h2, by rw [hgc, h3]⟩
        rw [htrue] at hfalse
        exact Bool.noConfusion hfalse
    rw [hsecond]
    exact ⟨rfl, rfl⟩

/-- witness for C3 (amended) at plain paragraph content with empty
history, once with no selection range and once with markers placed by
the push: in both cases the first call pushes and the second returns
`false`, leaving the stack unchanged. -/
theorem pushHistory_twice_gated_witness :
    ((pushHistory (pushHistory wC3).1).2 = false ∧
     (pushHistory (pushHistory wC3).1).1.stack = (pushHistory wC3).1.stack) ∧
    ((pushHistory (pushHistory wC3m).1).2 = false ∧
     (pushHistory (pushHistory wC3m).1).1.stack = (pushHistory wC3m).1.stack) :=
  ⟨pushHistory_twice_gated wC3 (by decide) (by decide),
   pushHistory_twice_gated wC3m (by decide) (by decide)⟩

/-- C9: when the stack has no entry at the current position the gating
comparison is skipped entirely — `pushHistory` pushes unconditionally
(appending the captured HTML, with the position pointing at it) and
returns `true`, whatever the current content. -/
theorem pushHistory_no_entry (e : Editor) (h : e.stack[e.position]? = none) :
    (pushHistory e).2 = true ∧
    (pushHistory e).1.stack = e.stack ++ [capturedHTML e] ∧
    (pushHistory e).1.position = e.stack.length := by
  have hlen : e.stack.length ≤ e.position := List.getElem?_eq_none_iff.mp h
  have htake : e.stack.take (e.position + 1) = e.stack :=
    List.take_of_length_le (Nat.le_succ_of_le hlen)
  have hcommit : pushHistory e = pushHistoryCommit e := by
    simp [pushHistory, h]
  obtain ⟨hst, hpos, _, _, htrue⟩ := pushHistoryCommit_spec e
  rw [hcommit, hst, hpos, htake]
  exact ⟨htrue, rfl, rfl⟩

/-- witness for C9 at an editor with empty content and empty history:
the very first `pushHistory` pushes the empty snapshot and returns
`true`. -/
theorem pushHistory_no_entry_witness :
    (pushHistory wC9).2 = true ∧
    (pushHistory wC9).1.stack = wC9.stack ++ [capturedHTML wC9] ∧
    (pushHistory wC9).1.position = wC9.stack.length :=
  pushHistory_no_entry wC9 rfl

/-- C10: `getContent()` is `getHTML()` with a single trailing `<br>`
removed when one is present and is the raw HTML otherwise; the
push-gating comparison depends on the current state only through this
stripped form (together with the stack and position), while the entry a
successful push stores is the captured raw `getHTML()` — with the marker
tokens placed when a selection range exists, and exactly the raw HTML
when none does. -/
theorem getContent_strips_trailing_br (e₁ e₂ : Editor) :
    ((∃ s, getHTML e₁ = s ++ "<br>" ∧ getContent e₁ = s) ∨
      ((¬ ∃ s, getHTML e₁ = s ++ "<br>") ∧ getContent e₁ = getHTML e₁)) ∧
    (e₁.stack = e₂.stack → e₁.position = e₂.position → getContent e₁ = getContent e₂ →
      (pushHistory e₁).2 = (pushHistory e₂).2) ∧
    ((pushHistory e₁).2 = true →
      (pushHistory e₁).1.stack[(pushHistory e₁).1.position]? = some (capturedHTML e₁)) ∧
    (e₁.rangeCount = false → capturedHTML e₁ = getHTML e₁) := by
  refine ⟨?_, ?_, ?_, ?_⟩
  · by_cases hsuf : "<br>".data.isSuffixOf (getHTML e₁).data = true
    · left
      obtain ⟨t, ht⟩ := List.isSuffixOf_iff_suffix.mp hsuf
      refine ⟨String.mk t, ?_, ?_⟩
      · apply String.ext
        rw [String.data_append]
        exact ht.symm
      · unfold getContent
        rw [if_pos hsuf]
        have hbr : ("<br>".data).length = 4 := rfl
        have hlen : (getHTML e₁).data.length - 4 = t.length := by
          rw [← ht, List.length_append, hbr]
          omega
        rw [hlen]
        congr 1
        rw [← ht]
        exact List.take_left t "<br>".data
    · right
      constructor
      · rintro ⟨s, hs⟩
        apply hsuf
        apply List.isSuffixOf_iff_suffix.mpr
        refine ⟨s.data, ?_⟩
        rw [← String.data_append, ← hs]
      · unfold getContent
        rw [if_neg hsuf]
  · intro hs hp hg
    have hiff : ((pushHistory e₁).2 = false) ↔ ((pushHistory e₂).2 = false) := by
      rw [pushHistory_returns_false_iff, pushHistory_returns_false_iff, hs, hp, hg]
    cases hb₁ : (pushHistory e₁).2 <;> cases hb₂ : (pushHistory e₂).2 <;> simp_all
  · intro htrue
    rcases pushHistory_cases e₁ with hA | hB
    · rw [hA] at htrue
      exact Bool.noConfusion htrue
    · obtain ⟨hst, hpos, _, _, _⟩ := pushHistoryCommit_spec e₁
      rw [hB, hst, hpos]
      exact List.getElem?_concat_length _ _
  · intro h
    simp [capturedHTML, getHTML, h]

/-- witness for C10: the editor whose HTML is `a<br>` and the one whose
HTML is `a` (same stack, same position) gate identically; the push on
the first stores its captured HTML at the new current position; and with
no selection range the captured HTML is the raw `getHTML()`. -/
theorem getContent_strips_trailing_br_witness :
    (pushHistory w10a).2 = (pushHistory w10b).2 ∧
    (pushHistory w10a).1.stack[(pushHistory w10a).1.position]? = some (capturedHTML w10a) ∧
    capturedHTML w10a = getHTML w10a :=
  ⟨(getContent_strips_trailing_br w10a w10b).2.1 rfl rfl (by decide),
   (getContent_strips_trailing_br w10a w10b).2.2.1 (by decide),
   (getContent_strips_trailing_br w10a w10b).2.2.2 rfl⟩
